import Mathlib

/-!
# Verification of the fathom-video-mcp search/filter/projection core

Shallow embedding of `src/fathom_video_mcp/server.py`.

Modelling choices:
* Python strings are `List Char` (`Str`); Python `str.lower()` is
  `List.map Char.toLower` (the code only relies on ASCII behaviour).
* Python dicts reaching this code are JSON-like values; the code only ever
  looks up a fixed set of string keys, so keys are modelled by the inductive
  `Key` and values by the inductive `JVal`.  `dict.get(k)` is `dget`
  (yielding `JVal.null` for a missing key, as Python yields `None`),
  `dict.get(k, d)` is `pyGetD`, Python truthiness is `truthy`,
  `x or y` is `pyOr`.
* The pure part of each tool (everything after the HTTP fetch
  `make_request`) is embedded as a function of the raw response `JVal`.
* For the totality claim, a second, `Option`-valued copy of each projection
  (suffix `E`) returns `none` exactly where the Python code would raise
  (`.get` on a non-dict, iteration over a non-list); the plain versions
  coerce instead.
-/

/-- Python strings are modelled as lists of characters. -/
abbrev Str := List Char

/-- The fixed set of dictionary keys the server ever reads or writes. -/
inductive Key where
  | title
  | meeting_title
  | recording_id
  | url
  | share_url
  | created_at
  | scheduled_start_time
  | scheduled_end_time
  | recording_start_time
  | recording_end_time
  | transcript_language
  | recorded_by
  | name
  | email
  | calendar_invitees
  | is_external
  | default_summary
  | summary
  | template_name
  | markdown_formatted
  | transcript
  | speaker
  | display_name
  | text
  | timestamp
  | action_items
  | description
  | completed
  | recording_timestamp
  | items
  | next_cursor
  | meetings
  | count
  | error
  | segment_count
  | matched_calendar_invitee_email
deriving DecidableEq, Repr

/-- JSON-like values: the shape of the data the Python code manipulates. -/
inductive JVal where
  | null
  | bool (b : Bool)
  | num (n : Int)
  | str (s : Str)
  | arr (xs : List JVal)
  | obj (fields : List (Key × JVal))
deriving Repr

/-- Association-list lookup on object fields (Python dict keys are unique;
the code only ever compares the fixed keys of `Key`). -/
def jlookup (k : Key) : List (Key × JVal) → Option JVal
  | [] => none
  | (k', v) :: rest => if k' = k then some v else jlookup k rest

/-- Python `d.get(k)`: `None` (here `JVal.null`) when the key is missing.
On a non-dict the total model yields `null`; `dgetE` models the raised
`AttributeError` instead. -/
def dget (d : JVal) (k : Key) : JVal :=
  match d with
  | .obj fs => (jlookup k fs).getD .null
  | _ => .null

/-- Python `d.get(k, default)`: the default applies only when the key is absent. -/
def pyGetD (d : JVal) (k : Key) (dflt : JVal) : JVal :=
  match d with
  | .obj fs => (jlookup k fs).getD dflt
  | _ => dflt

/-- Python truthiness of a JSON-like value. -/
def truthy : JVal → Bool
  | .null => false
  | .bool b => b
  | .num n => n != 0
  | .str s => !s.isEmpty
  | .arr xs => !xs.isEmpty
  | .obj fs => !fs.isEmpty

/-- Python `x or y`. -/
def pyOr (a b : JVal) : JVal := if truthy a then a else b

/-- Coerce to a string; the code applies this only after `or ""`. -/
def asStr : JVal → Str
  | .str s => s
  | _ => []

/-- Coerce to a list; the code applies this only after `or []`. -/
def asArr : JVal → List JVal
  | .arr xs => xs
  | _ => []

/-- Key lookup on a projected object, distinguishing an absent key (`none`)
from a present `null` value; used to state which keys a projection emits. -/
def lookupJ (d : JVal) (k : Key) : Option JVal :=
  match d with
  | .obj fs => jlookup k fs
  | _ => none

/-- Python `meeting.get(k) or ""` followed by use as a string. -/
def strOrEmpty (v : JVal) : Str := asStr (pyOr v (.str []))

/-- Remove every occurrence of one character
(Python `s.replace(c, "")` for a single-character `c`). -/
def removeChar (c : Char) (s : Str) : Str := s.filter (fun x => x != c)

/-- The cleaning stage of `normalize_search` (server.py line 49):
`text.lower().replace(" ", "").replace("-", "").replace("_", "")`. -/
def cleanStr (text : Str) : Str :=
  removeChar '_' (removeChar '-' (removeChar ' ' (text.map Char.toLower)))

/-- The function `normalize_search` (server.py lines 47-53): lowercase, remove spaces,
hyphens and underscores, then strip one trailing `'s'` when the result has
length greater than 2. -/
def normalize_search (text : Str) : Str :=
  let normalized := cleanStr text
  if normalized.getLast? = some 's' ∧ 2 < normalized.length then
    normalized.dropLast
  else
    normalized

/-- The normalizer as the specification words it: lowercase, delete every
space, hyphen and underscore in one pass, then strip exactly one trailing
`'s'` iff the result ends in `'s'` and has length strictly greater than 2. -/
def normalizeSpec (text : Str) : Str :=
  let cleaned := (text.map Char.toLower).filter
    (fun c => !(c == ' ' || c == '-' || c == '_'))
  if cleaned.getLast? = some 's' ∧ 2 < cleaned.length then
    cleaned.dropLast
  else
    cleaned

/-- Does `s` start with `needle`? (auxiliary for the substring test). -/
def startsWithStr (needle s : Str) : Bool :=
  match needle, s with
  | [], _ => true
  | _ :: _, [] => false
  | a :: as, b :: bs => a == b && startsWithStr as bs

/-- Python `needle in s` for strings: contiguous substring test. -/
def containsStr (needle s : Str) : Bool :=
  match s with
  | [] => needle.isEmpty
  | _ :: rest => startsWithStr needle s || containsStr needle rest

/-- The string `needle` occurs contiguously inside `s`. -/
def SubstrOf (needle s : Str) : Prop := ∃ pre post, s = pre ++ needle ++ post

/-- The function `meeting_matches_search` (server.py lines 56-75): the title check, the
meeting_title check, then the invitee loop with early return. -/
def meeting_matches_search (meeting : JVal) (search_normalized : Str) : Bool :=
  containsStr search_normalized
      (normalize_search (strOrEmpty (dget meeting Key.title))) ||
  containsStr search_normalized
      (normalize_search (strOrEmpty (dget meeting Key.meeting_title))) ||
  (asArr (pyOr (dget meeting Key.calendar_invitees) (.arr []))).any fun invitee =>
    containsStr search_normalized
        (normalize_search (strOrEmpty (dget invitee Key.name))) ||
    containsStr search_normalized
        ((strOrEmpty (dget invitee Key.email)).map Char.toLower)

/-- The limit clamp (server.py lines 120-122):
`if limit is not None: limit = max(1, min(50, limit))`. -/
def clamp_limit : Option Int → Option Int
  | none => none
  | some l => some (max 1 (min 50 l))

/-- Python `xs[:k]`: a nonnegative bound takes a prefix, a negative bound
drops `|k|` elements from the end (clamped at the empty list). -/
def pySliceTo (k : Int) (xs : List JVal) : List JVal :=
  if 0 ≤ k then xs.take k.toNat else xs.take (xs.length - (-k).toNat)

/-- The client-side search step (server.py lines 153-155): Python
`if search:` is false for `None` and for the empty string. -/
def search_filter (search : Option Str) (items : List JVal) : List JVal :=
  match search with
  | none => items
  | some s =>
    if s.isEmpty then items
    else items.filter (fun m => meeting_matches_search m (normalize_search s))

/-- The truncation step (server.py lines 158-159):
`if limit is not None: items = items[:limit]`. -/
def apply_limit (limit : Option Int) (items : List JVal) : List JVal :=
  match limit with
  | none => items
  | some l => pySliceTo l items

/-- One invitee of the `calendar_invitees` projection (server.py 187-194). -/
def project_invitee (inv : JVal) : JVal :=
  .obj [(Key.name, dget inv Key.name),
        (Key.email, dget inv Key.email),
        (Key.is_external, dget inv Key.is_external)]

/-- One transcript segment of the inline transcript projection in
`list_meetings` (server.py 205-212): note
`seg.get("speaker", {}).get("display_name", "Unknown")`. -/
def project_segment_inline (seg : JVal) : JVal :=
  .obj [(Key.speaker,
          pyGetD (pyGetD seg Key.speaker (.obj [])) Key.display_name
            (.str ['U', 'n', 'k', 'n', 'o', 'w', 'n'])),
        (Key.text, dget seg Key.text),
        (Key.timestamp, dget seg Key.timestamp)]

/-- One action item of the `action_items` projection (server.py 216-223). -/
def project_action_item (item : JVal) : JVal :=
  .obj [(Key.description, dget item Key.description),
        (Key.completed, dget item Key.completed),
        (Key.recording_timestamp, dget item Key.recording_timestamp)]

/-- The per-meeting projection of `list_meetings` (server.py 164-225):
eleven unconditional fields, then `recorded_by`, `calendar_invitees`,
`summary`, `transcript` and `action_items`, each added only under the
code's truthiness (and include-flag) condition, in source order. -/
def projectMeeting (incS incT incA : Bool) (meeting : JVal) : JVal :=
  let fixed : List (Key × JVal) :=
    [(Key.title, dget meeting Key.title),
     (Key.meeting_title, dget meeting Key.meeting_title),
     (Key.recording_id, dget meeting Key.recording_id),
     (Key.url, dget meeting Key.url),
     (Key.share_url, dget meeting Key.share_url),
     (Key.created_at, dget meeting Key.created_at),
     (Key.scheduled_start_time, dget meeting Key.scheduled_start_time),
     (Key.scheduled_end_time, dget meeting Key.scheduled_end_time),
     (Key.recording_start_time, dget meeting Key.recording_start_time),
     (Key.recording_end_time, dget meeting Key.recording_end_time),
     (Key.transcript_language, dget meeting Key.transcript_language)]
  let recorded_by := dget meeting Key.recorded_by
  let part1 := fixed ++
    (if truthy recorded_by then
      [(Key.recorded_by,
        JVal.obj [(Key.name, dget recorded_by Key.name),
                  (Key.email, dget recorded_by Key.email)])]
     else [])
  let invitees := dget meeting Key.calendar_invitees
  let part2 := part1 ++
    (if truthy invitees then
      [(Key.calendar_invitees, JVal.arr ((asArr invitees).map project_invitee))]
     else [])
  let summary := dget meeting Key.default_summary
  let part3 := part2 ++
    (if incS && truthy summary then
      [(Key.summary,
        JVal.obj [(Key.template_name, dget summary Key.template_name),
                  (Key.markdown_formatted, dget summary Key.markdown_formatted)])]
     else [])
  let transcript := dget meeting Key.transcript
  let part4 := part3 ++
    (if incT && truthy transcript then
      [(Key.transcript, JVal.arr ((asArr transcript).map project_segment_inline))]
     else [])
  let action_items := dget meeting Key.action_items
  let part5 := part4 ++
    (if incA && truthy action_items then
      [(Key.action_items, JVal.arr ((asArr action_items).map project_action_item))]
     else [])
  .obj part5

/-- The pure tail of `list_meetings` (server.py 120-122 and 149-231): clamp
the limit, take the raw page's `items`, filter by search, truncate by the
clamped limit, project each survivor, and return
`{meetings, count, next_cursor}` with the page's cursor passed through. -/
def list_meetings_from_page (limit : Option Int) (search : Option Str)
    (incS incT incA : Bool) (data : JVal) : JVal :=
  let limit := clamp_limit limit
  let items := asArr (pyGetD data Key.items (.arr []))
  let items := search_filter search items
  let items := apply_limit limit items
  let meetings := items.map (projectMeeting incS incT incA)
  .obj [(Key.meetings, .arr meetings),
        (Key.count, .num (meetings.length : Int)),
        (Key.next_cursor, dget data Key.next_cursor)]

/-- The string `"No summary available for this recording"`. -/
def noSummaryMsg : Str :=
  ['N', 'o', ' ', 's', 'u', 'm', 'm', 'a', 'r', 'y', ' ',
   'a', 'v', 'a', 'i', 'l', 'a', 'b', 'l', 'e', ' ',
   'f', 'o', 'r', ' ', 't', 'h', 'i', 's', ' ',
   'r', 'e', 'c', 'o', 'r', 'd', 'i', 'n', 'g']

/-- The pure tail of `get_summary` (server.py 245-256). -/
def get_summary_from (recording_id : Int) (data : JVal) : JVal :=
  let summary := dget data Key.summary
  if truthy summary then
    .obj [(Key.recording_id, .num recording_id),
          (Key.template_name, dget summary Key.template_name),
          (Key.markdown_formatted, dget summary Key.markdown_formatted)]
  else
    .obj [(Key.recording_id, .num recording_id),
          (Key.error, .str noSummaryMsg)]

/-- One segment of `get_transcript` (server.py 272-283): `{text, timestamp}`
always, plus a `speaker` sub-object only when the raw segment's `speaker`
is truthy. -/
def project_transcript_segment (seg : JVal) : JVal :=
  let base : List (Key × JVal) :=
    [(Key.text, pyGetD seg Key.text (.str [])),
     (Key.timestamp, dget seg Key.timestamp)]
  let speaker := dget seg Key.speaker
  .obj (base ++
    (if truthy speaker then
      [(Key.speaker,
        JVal.obj [(Key.display_name,
                    pyGetD speaker Key.display_name
                      (.str ['U', 'n', 'k', 'n', 'o', 'w', 'n'])),
                  (Key.email, dget speaker Key.matched_calendar_invitee_email)])]
     else []))

/-- The pure tail of `get_transcript` (server.py 270-289). -/
def get_transcript_from (recording_id : Int) (data : JVal) : JVal :=
  let segments := (asArr (pyGetD data Key.transcript (.arr []))).map
    project_transcript_segment
  .obj [(Key.recording_id, .num recording_id),
        (Key.transcript, .arr segments),
        (Key.segment_count, .num (segments.length : Int))]

/-! ## Checked projections

`Option`-valued copies of the three projections, returning `none` exactly
where the Python code would raise a `TypeError`/`AttributeError`:
`.get` on a value that is not a dict, or iteration over a value that is
not a list.  Everything else is identical to the total versions above. -/

/-- Python `d.get(k)` raising on a non-dict. -/
def dgetE (d : JVal) (k : Key) : Option JVal :=
  match d with
  | .obj fs => some ((jlookup k fs).getD .null)
  | _ => none

/-- Python `d.get(k, default)` raising on a non-dict. -/
def pyGetDE (d : JVal) (k : Key) (dflt : JVal) : Option JVal :=
  match d with
  | .obj fs => some ((jlookup k fs).getD dflt)
  | _ => none

/-- Iteration (`for x in v`) raising on a non-list. -/
def asArrE : JVal → Option (List JVal)
  | .arr xs => some xs
  | _ => none

/-- A list comprehension whose body may raise: first failure aborts. -/
def mapME (f : JVal → Option JVal) : List JVal → Option (List JVal)
  | [] => some []
  | x :: xs => (f x).bind fun y => (mapME f xs).bind fun ys => some (y :: ys)

/-- Checked invitee projection. -/
def project_inviteeE (inv : JVal) : Option JVal :=
  (dgetE inv Key.name).bind fun n =>
  (dgetE inv Key.email).bind fun e =>
  (dgetE inv Key.is_external).bind fun x =>
  some (.obj [(Key.name, n), (Key.email, e), (Key.is_external, x)])

/-- Checked inline transcript segment projection:
`seg.get("speaker", {}).get("display_name", "Unknown")` raises when the
segment stores an explicit non-dict (e.g. `null`) under `"speaker"`. -/
def project_segment_inlineE (seg : JVal) : Option JVal :=
  (pyGetDE seg Key.speaker (.obj [])).bind fun sp =>
  (pyGetDE sp Key.display_name (.str ['U', 'n', 'k', 'n', 'o', 'w', 'n'])).bind fun dn =>
  (dgetE seg Key.text).bind fun tx =>
  (dgetE seg Key.timestamp).bind fun ts =>
  some (.obj [(Key.speaker, dn), (Key.text, tx), (Key.timestamp, ts)])

/-- Checked action item projection. -/
def project_action_itemE (item : JVal) : Option JVal :=
  (dgetE item Key.description).bind fun d =>
  (dgetE item Key.completed).bind fun c =>
  (dgetE item Key.recording_timestamp).bind fun t =>
  some (.obj [(Key.description, d), (Key.completed, c),
              (Key.recording_timestamp, t)])

/-- The eleven-entry unconditional field list of the checked meeting
projection, assembled from the already-fetched values. -/
def mkFixedFields (vTitle vMt vRid vUrl vSh vCr vSs vSe vRs vRe vTl : JVal) :
    List (Key × JVal) :=
  [(Key.title, vTitle), (Key.meeting_title, vMt), (Key.recording_id, vRid),
   (Key.url, vUrl), (Key.share_url, vSh), (Key.created_at, vCr),
   (Key.scheduled_start_time, vSs), (Key.scheduled_end_time, vSe),
   (Key.recording_start_time, vRs), (Key.recording_end_time, vRe),
   (Key.transcript_language, vTl)]

/-- Checked version of the unconditional `meeting_data` dict literal
(server.py 164-176): eleven `meeting.get(...)` calls. -/
def fixedFieldsE (meeting : JVal) : Option (List (Key × JVal)) :=
  (dgetE meeting Key.title).bind fun vTitle =>
  (dgetE meeting Key.meeting_title).bind fun vMt =>
  (dgetE meeting Key.recording_id).bind fun vRid =>
  (dgetE meeting Key.url).bind fun vUrl =>
  (dgetE meeting Key.share_url).bind fun vSh =>
  (dgetE meeting Key.created_at).bind fun vCr =>
  (dgetE meeting Key.scheduled_start_time).bind fun vSs =>
  (dgetE meeting Key.scheduled_end_time).bind fun vSe =>
  (dgetE meeting Key.recording_start_time).bind fun vRs =>
  (dgetE meeting Key.recording_end_time).bind fun vRe =>
  (dgetE meeting Key.transcript_language).bind fun vTl =>
  some (mkFixedFields vTitle vMt vRid vUrl vSh vCr vSs vSe vRs vRe vTl)

/-- Checked `recorded_by` block (server.py 178-183). -/
def recordedByPartE (meeting : JVal) : Option (List (Key × JVal)) :=
  (dgetE meeting Key.recorded_by).bind fun recorded_by =>
  if truthy recorded_by then
    (dgetE recorded_by Key.name).bind fun n =>
    (dgetE recorded_by Key.email).bind fun e =>
    some [(Key.recorded_by, JVal.obj [(Key.name, n), (Key.email, e)])]
  else some []

/-- Checked `calendar_invitees` block (server.py 185-194). -/
def inviteesPartE (meeting : JVal) : Option (List (Key × JVal)) :=
  (dgetE meeting Key.calendar_invitees).bind fun invitees =>
  if truthy invitees then
    (asArrE invitees).bind fun xs =>
    (mapME project_inviteeE xs).bind fun projected =>
    some [(Key.calendar_invitees, JVal.arr projected)]
  else some []

/-- Checked `summary` block (server.py 196-201). -/
def summaryPartE (incS : Bool) (meeting : JVal) : Option (List (Key × JVal)) :=
  (dgetE meeting Key.default_summary).bind fun summary =>
  if incS && truthy summary then
    (dgetE summary Key.template_name).bind fun tn =>
    (dgetE summary Key.markdown_formatted).bind fun md =>
    some [(Key.summary,
            JVal.obj [(Key.template_name, tn), (Key.markdown_formatted, md)])]
  else some []

/-- Checked `transcript` block (server.py 203-212). -/
def transcriptPartE (incT : Bool) (meeting : JVal) : Option (List (Key × JVal)) :=
  (dgetE meeting Key.transcript).bind fun transcript =>
  if incT && truthy transcript then
    (asArrE transcript).bind fun xs =>
    (mapME project_segment_inlineE xs).bind fun projected =>
    some [(Key.transcript, JVal.arr projected)]
  else some []

/-- Checked `action_items` block (server.py 214-223). -/
def actionItemsPartE (incA : Bool) (meeting : JVal) : Option (List (Key × JVal)) :=
  (dgetE meeting Key.action_items).bind fun action_items =>
  if incA && truthy action_items then
    (asArrE action_items).bind fun xs =>
    (mapME project_action_itemE xs).bind fun projected =>
    some [(Key.action_items, JVal.arr projected)]
  else some []

/-- Checked per-meeting projection of `list_meetings`: the blocks in
source order. -/
def projectMeetingE (incS incT incA : Bool) (meeting : JVal) : Option JVal :=
  (fixedFieldsE meeting).bind fun fixed =>
  (recordedByPartE meeting).bind fun rbPart =>
  (inviteesPartE meeting).bind fun invPart =>
  (summaryPartE incS meeting).bind fun sumPart =>
  (transcriptPartE incT meeting).bind fun trPart =>
  (actionItemsPartE incA meeting).bind fun aiPart =>
  some (.obj (fixed ++ rbPart ++ invPart ++ sumPart ++ trPart ++ aiPart))

/-- Checked `get_summary` tail. -/
def get_summary_fromE (recording_id : Int) (data : JVal) : Option JVal :=
  (dgetE data Key.summary).bind fun summary =>
  if truthy summary then
    (dgetE summary Key.template_name).bind fun tn =>
    (dgetE summary Key.markdown_formatted).bind fun md =>
    some (.obj [(Key.recording_id, .num recording_id),
                (Key.template_name, tn),
                (Key.markdown_formatted, md)])
  else
    some (.obj [(Key.recording_id, .num recording_id),
                (Key.error, .str noSummaryMsg)])

/-- Checked `get_transcript` segment projection. -/
def project_transcript_segmentE (seg : JVal) : Option JVal :=
  (pyGetDE seg Key.text (.str [])).bind fun tx =>
  (dgetE seg Key.timestamp).bind fun ts =>
  (dgetE seg Key.speaker).bind fun speaker =>
  (if truthy speaker then
    (pyGetDE speaker Key.display_name
        (.str ['U', 'n', 'k', 'n', 'o', 'w', 'n'])).bind fun dn =>
    (dgetE speaker Key.matched_calendar_invitee_email).bind fun em =>
    some [(Key.speaker, JVal.obj [(Key.display_name, dn), (Key.email, em)])]
   else some []).bind fun spPart =>
  some (.obj ([(Key.text, tx), (Key.timestamp, ts)] ++ spPart))

/-- Checked `get_transcript` tail: iterating `data.get("transcript", [])`
raises when the envelope stores an explicit non-list (e.g. `null`). -/
def get_transcript_fromE (recording_id : Int) (data : JVal) : Option JVal :=
  (pyGetDE data Key.transcript (.arr [])).bind fun transcript =>
  (asArrE transcript).bind fun xs =>
  (mapME project_transcript_segmentE xs).bind fun segments =>
  some (.obj [(Key.recording_id, .num recording_id),
              (Key.transcript, .arr segments),
              (Key.segment_count, .num (segments.length : Int))])

/-! ## Well-formedness

The shape assumptions under which the checked projections cannot fail:
the record is a dict, and every sub-object the code unconditionally calls
`.get` on (or iterates) has the right shape when the code reaches it. -/

/-- Is the value a dict? -/
def isObjB : JVal → Bool
  | .obj _ => true
  | _ => false

/-- Is the value a list? -/
def isArrB : JVal → Bool
  | .arr _ => true
  | _ => false

/-- A transcript segment as the inline projection of `list_meetings`
consumes it: a dict whose `speaker` key, when present, holds a dict
(an explicit `null` speaker makes the Python code raise). -/
def wfSegInline (seg : JVal) : Bool :=
  match seg with
  | .obj fs =>
    match jlookup Key.speaker fs with
    | none => true
    | some v => isObjB v
  | _ => false

/-- A raw meeting record as `projectMeeting` consumes it. -/
def wfMeeting (m : JVal) : Bool :=
  isObjB m &&
  (!truthy (dget m Key.recorded_by) || isObjB (dget m Key.recorded_by)) &&
  (!truthy (dget m Key.calendar_invitees) ||
    (isArrB (dget m Key.calendar_invitees) &&
      (asArr (dget m Key.calendar_invitees)).all isObjB)) &&
  (!truthy (dget m Key.default_summary) || isObjB (dget m Key.default_summary)) &&
  (!truthy (dget m Key.transcript) ||
    (isArrB (dget m Key.transcript) &&
      (asArr (dget m Key.transcript)).all wfSegInline)) &&
  (!truthy (dget m Key.action_items) ||
    (isArrB (dget m Key.action_items) &&
      (asArr (dget m Key.action_items)).all isObjB))

/-- A summary envelope as `get_summary` consumes it. -/
def wfSummaryEnv (data : JVal) : Bool :=
  isObjB data &&
  (!truthy (dget data Key.summary) || isObjB (dget data Key.summary))

/-- A transcript segment as `get_transcript` consumes it: a dict whose
truthy `speaker` is a dict (`null` is fine here, the code guards on it). -/
def wfSegT (seg : JVal) : Bool :=
  isObjB seg &&
  (!truthy (dget seg Key.speaker) || isObjB (dget seg Key.speaker))

/-- A transcript envelope as `get_transcript` consumes it: a dict whose
`transcript` key, when present, holds a list of well-formed segments
(an explicit `null` transcript makes the Python code raise). -/
def wfTranscriptEnv (data : JVal) : Bool :=
  match data with
  | .obj fs =>
    match jlookup Key.transcript fs with
    | none => true
    | some v => isArrB v && (asArr v).all wfSegT
  | _ => false

/-- The records `list_meetings` keeps for a page: filter the page's items
by the matcher on the normalized term, then truncate by the clamped
limit. -/
def selected_records (limit : Option Int) (s : Str) (data : JVal) : List JVal :=
  apply_limit (clamp_limit limit)
    ((asArr (pyGetD data Key.items (JVal.arr []))).filter
      (fun m => meeting_matches_search m (normalize_search s)))

/-- A concrete raw record carrying both summary and transcript data. -/
def demo_meeting : JVal :=
  JVal.obj
    [(Key.default_summary,
       JVal.obj [(Key.template_name, JVal.str ['g'])]),
     (Key.transcript,
       JVal.arr [JVal.obj [(Key.text, JVal.str ['h', 'i'])]])]

/-! ## Helper lemmas -/

/-- The map `Char.toLower` is idempotent: lowering an A-Z character lands outside
A-Z, every other character is unchanged. -/
theorem toLower_toLower (c : Char) : c.toLower.toLower = c.toLower := by
  by_cases h : c.toNat ≥ 65 ∧ c.toNat ≤ 90
  · have h1 : c.toLower = Char.ofNat (c.toNat + 32) := by
      simp only [Char.toLower]
      rw [if_pos h]
    rw [h1]
    obtain ⟨ha, hb⟩ := h
    generalize c.toNat = n at ha hb ⊢
    interval_cases n <;> decide
  · have h1 : c.toLower = c := by
      simp only [Char.toLower]
      rw [if_neg h]
    rw [h1, h1]

theorem startsWithStr_iff (n s : Str) :
    startsWithStr n s = true ↔ ∃ t, s = n ++ t := by
  induction n generalizing s with
  | nil => simp [startsWithStr]
  | cons a as ih =>
    cases s with
    | nil => simp [startsWithStr]
    | cons b bs =>
      simp only [startsWithStr, Bool.and_eq_true, beq_iff_eq, ih]
      constructor
      · rintro ⟨rfl, t, rfl⟩
        exact ⟨t, rfl⟩
      · rintro ⟨t, h⟩
        rw [List.cons_append] at h
        obtain ⟨h1, h2⟩ := List.cons.injEq .. ▸ h
        exact ⟨h1.symm, t, h2⟩

theorem containsStr_iff (n s : Str) :
    containsStr n s = true ↔ SubstrOf n s := by
  unfold SubstrOf
  induction s with
  | nil =>
    simp only [containsStr, List.isEmpty_iff]
    constructor
    · rintro rfl
      exact ⟨[], [], rfl⟩
    · rintro ⟨pre, post, h⟩
      cases pre <;> cases n <;> simp_all
  | cons b bs ih =>
    simp only [containsStr, Bool.or_eq_true, startsWithStr_iff, ih]
    constructor
    · rintro (⟨t, h⟩ | ⟨pre, post, h⟩)
      · exact ⟨[], t, by simpa using h⟩
      · exact ⟨b :: pre, post, by simp [h]⟩
    · rintro ⟨pre, post, h⟩
      cases pre with
      | nil =>
        left
        exact ⟨post, by simpa using h⟩
      | cons x xs =>
        right
        rw [List.cons_append, List.cons_append] at h
        obtain ⟨h1, h2⟩ := List.cons.injEq .. ▸ h
        exact ⟨xs, post, by simpa using h2⟩

/-- The empty term is a substring of everything. -/
theorem containsStr_nil (s : Str) : containsStr [] s = true := by
  cases s <;> simp [containsStr, startsWithStr]

/-- Every character surviving `normalize_search` is `toLower`-fixed and is
none of the three removed separator characters. -/
theorem normalize_search_char_fixed {c : Char} {s : Str}
    (h : c ∈ normalize_search s) :
    Char.toLower c = c ∧ (c != ' ') = true ∧ (c != '-') = true ∧
      (c != '_') = true := by
  have hu : c ∈ cleanStr s := by
    simp only [normalize_search] at h
    split at h
    · exact List.mem_of_mem_dropLast h
    · exact h
  unfold cleanStr removeChar at hu
  rw [List.mem_filter] at hu
  obtain ⟨hu, h3⟩ := hu
  rw [List.mem_filter] at hu
  obtain ⟨hu, h2⟩ := hu
  rw [List.mem_filter] at hu
  obtain ⟨hu, h1⟩ := hu
  obtain ⟨a, _, rfl⟩ := List.mem_map.mp hu
  exact ⟨toLower_toLower a, h1, h2, h3⟩

/-- The cleaning stage (lowercase plus separator removal) fixes the output
of `normalize_search`. -/
theorem clean_normalize (s : Str) :
    cleanStr (normalize_search s) = normalize_search s := by
  unfold cleanStr
  have hmap : (normalize_search s).map Char.toLower = normalize_search s := by
    rw [List.map_congr_left (fun a ha => (normalize_search_char_fixed ha).1)]
    exact List.map_id _
  rw [hmap]
  have h1 : removeChar ' ' (normalize_search s) = normalize_search s :=
    List.filter_eq_self.mpr (fun a ha => (normalize_search_char_fixed ha).2.1)
  have h2 : removeChar '-' (normalize_search s) = normalize_search s :=
    List.filter_eq_self.mpr (fun a ha => (normalize_search_char_fixed ha).2.2.1)
  have h3 : removeChar '_' (normalize_search s) = normalize_search s :=
    List.filter_eq_self.mpr (fun a ha => (normalize_search_char_fixed ha).2.2.2)
  rw [h1, h2, h3]

/-- The three sequential single-character removals equal the single-pass
filter the specification describes. -/
theorem cleanStr_eq (s : Str) :
    cleanStr s = (s.map Char.toLower).filter
      (fun c => !(c == ' ' || c == '-' || c == '_')) := by
  unfold cleanStr removeChar
  rw [List.filter_filter, List.filter_filter]
  refine List.filter_congr (fun a _ => ?_)
  cases h1 : a == ' ' <;> cases h2 : a == '-' <;> cases h3 : a == '_' <;>
    simp [bne, h1, h2, h3]

/-- The normalizer written through `cleanStr` (definition unfolding). -/
theorem normalize_search_eq (t : Str) :
    normalize_search t =
      if (cleanStr t).getLast? = some 's' ∧ 2 < (cleanStr t).length then
        (cleanStr t).dropLast
      else cleanStr t := rfl

/-! ## Claims -/

/-- C1 counterexample: `normalize` is not idempotent on the code.
`normalize("boss") = "bos"` (one trailing `'s'` stripped), but
`normalize("bos") = "bo"`: the strip step applies again. -/
theorem c1_counterexample :
    ¬(normalize_search (normalize_search ['b', 'o', 's', 's']) =
        normalize_search ['b', 'o', 's', 's']) := by decide

/-- C1 (amended): `normalize(normalize(s)) == normalize(s)` for every
string whose normalized form does not itself end in `'s'` with length
greater than 2 (idempotence fails exactly when the strip step can fire a
second time). -/
theorem c1_normalize_idempotent_amended (s : Str)
    (h : ¬((normalize_search s).getLast? = some 's' ∧
            2 < (normalize_search s).length)) :
    normalize_search (normalize_search s) = normalize_search s := by
  rw [normalize_search_eq (normalize_search s), clean_normalize, if_neg h]

/-- C1 witness: the amended idempotence at the concrete input "meeting". -/
theorem c1_witness :
    ¬((normalize_search ['m', 'e', 'e', 't', 'i', 'n', 'g']).getLast? = some 's' ∧
        2 < (normalize_search ['m', 'e', 'e', 't', 'i', 'n', 'g']).length) ∧
    normalize_search (normalize_search ['m', 'e', 'e', 't', 'i', 'n', 'g']) =
      normalize_search ['m', 'e', 'e', 't', 'i', 'n', 'g'] :=
  ⟨by decide, c1_normalize_idempotent_amended _ (by decide)⟩

/-- C2: `normalize` equals the specification's description (lowercase,
delete the three separator characters, strip exactly one trailing `'s'`
iff the result ends in `'s'` and has length greater than 2), and the four
quoted examples hold. -/
theorem c2_normalize_functional :
    (∀ s : Str, normalize_search s = normalizeSpec s) ∧
    normalize_search [] = [] ∧
    normalize_search ['o', 's'] = ['o', 's'] ∧
    normalize_search ['M', 'e', 'e', 't', 'i', 'n', 'g', 's'] =
      ['m', 'e', 'e', 't', 'i', 'n', 'g'] ∧
    normalize_search ['A', 'c', 'm', 'e', '-', 'C', 'o', 'r', 'p'] =
      ['a', 'c', 'm', 'e', 'c', 'o', 'r', 'p'] := by
  refine ⟨fun s => ?_, by decide, by decide, by decide, by decide⟩
  rw [normalize_search_eq, cleanStr_eq]
  rfl

/-- The matcher accepts everything when the normalized term is empty
(the empty string is a substring of every field). -/
theorem meeting_matches_search_nil (m : JVal) :
    meeting_matches_search m [] = true := by
  unfold meeting_matches_search
  rw [containsStr_nil]
  simp

/-- Applying `search_filter` with a supplied term is the matcher filter, whether or
not the term is empty: Python skips the filter for a falsy `""`, and the
matcher filter keeps everything for the empty normalized term. -/
theorem search_filter_some (s : Str) (items : List JVal) :
    search_filter (some s) items =
      items.filter (fun m => meeting_matches_search m (normalize_search s)) := by
  simp only [search_filter]
  split
  case isTrue h =>
    obtain rfl : s = [] := List.isEmpty_iff.mp h
    symm
    exact List.filter_eq_self.mpr (fun m _ => meeting_matches_search_nil m)
  case isFalse h => rfl

/-- Truncation only ever keeps elements of the input list. -/
theorem mem_apply_limit {L : Option Int} {xs : List JVal} {m : JVal}
    (h : m ∈ apply_limit L xs) : m ∈ xs := by
  cases L with
  | none => exact h
  | some l =>
    simp only [apply_limit] at h
    unfold pySliceTo at h
    split at h <;> exact List.mem_of_mem_take h

/-- C3: the matcher returns true iff the normalized term is a substring of
the normalized title, of the normalized meeting_title, or, for some
invitee, of the invitee's normalized name or lowercased (un-normalized)
email; missing and null fields read as the empty string (`strOrEmpty` of
`null` is `""`, `dict.get` of a missing key is `null`). -/
theorem c3_matcher_iff :
    (∀ (meeting : JVal) (term : Str),
      meeting_matches_search meeting term = true ↔
        (SubstrOf term (normalize_search (strOrEmpty (dget meeting Key.title))) ∨
         SubstrOf term
           (normalize_search (strOrEmpty (dget meeting Key.meeting_title))) ∨
         ∃ invitee ∈ asArr (pyOr (dget meeting Key.calendar_invitees) (.arr [])),
           SubstrOf term
             (normalize_search (strOrEmpty (dget invitee Key.name))) ∨
           SubstrOf term
             ((strOrEmpty (dget invitee Key.email)).map Char.toLower))) ∧
    strOrEmpty JVal.null = [] ∧
    dget (JVal.obj []) Key.title = JVal.null := by
  refine ⟨fun meeting term => ?_, rfl, rfl⟩
  unfold meeting_matches_search
  simp [List.any_eq_true, containsStr_iff, or_assoc]

/-- C4: the limit is clamped into [1, 50] (0 becomes 1, 100 becomes 50,
every value lands in the range) and `limit=None` means the page is not
truncated at all: the response holds every record surviving the search
filter. -/
theorem c4_limit_clamped :
    clamp_limit (some 0) = some 1 ∧
    clamp_limit (some 100) = some 50 ∧
    (∀ l : Int, ∃ c, clamp_limit (some l) = some c ∧ 1 ≤ c ∧ c ≤ 50) ∧
    (∀ (search : Option Str) (incS incT incA : Bool) (data : JVal),
      lookupJ (list_meetings_from_page none search incS incT incA data)
          Key.meetings =
        some (.arr ((search_filter search
          (asArr (pyGetD data Key.items (.arr [])))).map
            (projectMeeting incS incT incA)))) := by
  refine ⟨rfl, rfl, fun l => ⟨max 1 (min 50 l), rfl, le_max_left 1 _, ?_⟩, ?_⟩
  · omega
  · intro search incS incT incA data
    simp [list_meetings_from_page, clamp_limit, apply_limit, lookupJ, jlookup]

/-- C5: with a search term supplied, the response's meetings are exactly
the projections of the first clamped-limit matcher hits of the page in
order, `count` is their number, `next_cursor` is the page's cursor passed
through verbatim, and every selected record satisfies the matcher. -/
theorem c5_search_before_limit (limit : Option Int) (s : Str)
    (incS incT incA : Bool) (data : JVal) :
    lookupJ (list_meetings_from_page limit (some s) incS incT incA data)
        Key.meetings =
      some (.arr ((selected_records limit s data).map
        (projectMeeting incS incT incA))) ∧
    lookupJ (list_meetings_from_page limit (some s) incS incT incA data)
        Key.count =
      some (.num ((selected_records limit s data).length : Int)) ∧
    lookupJ (list_meetings_from_page limit (some s) incS incT incA data)
        Key.next_cursor =
      some (dget data Key.next_cursor) ∧
    ∀ m ∈ selected_records limit s data,
      meeting_matches_search m (normalize_search s) = true := by
  refine ⟨?_, ?_, ?_, ?_⟩
  · simp [list_meetings_from_page, search_filter_some, selected_records,
      lookupJ, jlookup]
  · simp [list_meetings_from_page, search_filter_some, selected_records,
      lookupJ, jlookup]
  · simp [list_meetings_from_page, lookupJ, jlookup]
  · intro m hm
    unfold selected_records at hm
    exact (List.mem_filter.mp (mem_apply_limit hm)).2

/-- C5 witness: the pipeline at a concrete one-record page; the selected
record satisfies the matcher for the normalized term "Acmes". -/
theorem c5_witness :
    meeting_matches_search (JVal.obj [(Key.title, JVal.str ['A', 'c', 'm', 'e'])])
      (normalize_search ['A', 'c', 'm', 'e', 's']) = true :=
  (c5_search_before_limit (some 2) ['A', 'c', 'm', 'e', 's'] false false false
      (JVal.obj [(Key.items,
          JVal.arr [JVal.obj [(Key.title, JVal.str ['A', 'c', 'm', 'e'])]]),
        (Key.next_cursor, JVal.str ['c'])])).2.2.2
    (JVal.obj [(Key.title, JVal.str ['A', 'c', 'm', 'e'])])
    (by show JVal.obj [(Key.title, JVal.str ['A', 'c', 'm', 'e'])] ∈
          [JVal.obj [(Key.title, JVal.str ['A', 'c', 'm', 'e'])]]
        exact List.mem_singleton.mpr rfl)

/-- Which value (if any) each conditional key of the meeting projection
holds: exactly the code's guard decides, and the unconditional key block
never contains these keys. -/
theorem lookupJ_projectMeeting (incS incT incA : Bool) (m : JVal) :
    lookupJ (projectMeeting incS incT incA m) Key.recorded_by =
      (if truthy (dget m Key.recorded_by) then
        some (JVal.obj [(Key.name, dget (dget m Key.recorded_by) Key.name),
                        (Key.email, dget (dget m Key.recorded_by) Key.email)])
       else none) ∧
    lookupJ (projectMeeting incS incT incA m) Key.calendar_invitees =
      (if truthy (dget m Key.calendar_invitees) then
        some (JVal.arr ((asArr (dget m Key.calendar_invitees)).map project_invitee))
       else none) ∧
    lookupJ (projectMeeting incS incT incA m) Key.summary =
      (if incS && truthy (dget m Key.default_summary) then
        some (JVal.obj
          [(Key.template_name, dget (dget m Key.default_summary) Key.template_name),
           (Key.markdown_formatted,
             dget (dget m Key.default_summary) Key.markdown_formatted)])
       else none) ∧
    lookupJ (projectMeeting incS incT incA m) Key.transcript =
      (if incT && truthy (dget m Key.transcript) then
        some (JVal.arr ((asArr (dget m Key.transcript)).map project_segment_inline))
       else none) ∧
    lookupJ (projectMeeting incS incT incA m) Key.action_items =
      (if incA && truthy (dget m Key.action_items) then
        some (JVal.arr ((asArr (dget m Key.action_items)).map project_action_item))
       else none) := by
  by_cases h1 : truthy (dget m Key.recorded_by) = true <;>
  by_cases h2 : truthy (dget m Key.calendar_invitees) = true <;>
  by_cases h3 : (incS && truthy (dget m Key.default_summary)) = true <;>
  by_cases h4 : (incT && truthy (dget m Key.transcript)) = true <;>
  by_cases h5 : (incA && truthy (dget m Key.action_items)) = true <;>
  simp [projectMeeting, lookupJ, jlookup, h1, h2, h3, h4, h5]

/-- C6: each optional block (`summary`, `transcript`, `action_items`)
appears in the projection iff its include flag is set AND the raw record's
corresponding field is truthy; in particular, with summary requested and
transcript not, a record carrying both yields a `summary` key and no
`transcript` key. -/
theorem c6_optional_blocks_independent :
    (∀ (incS incT incA : Bool) (m : JVal),
      (lookupJ (projectMeeting incS incT incA m) Key.summary).isSome =
        (incS && truthy (dget m Key.default_summary)) ∧
      (lookupJ (projectMeeting incS incT incA m) Key.transcript).isSome =
        (incT && truthy (dget m Key.transcript)) ∧
      (lookupJ (projectMeeting incS incT incA m) Key.action_items).isSome =
        (incA && truthy (dget m Key.action_items))) ∧
    (lookupJ (projectMeeting true false false demo_meeting) Key.summary).isSome
      = true ∧
    lookupJ (projectMeeting true false false demo_meeting) Key.transcript
      = none := by
  refine ⟨fun incS incT incA m => ?_, rfl, rfl⟩
  obtain ⟨-, -, hs, ht, ha⟩ := lookupJ_projectMeeting incS incT incA m
  refine ⟨?_, ?_, ?_⟩
  · rw [hs]
    cases incS && truthy (dget m Key.default_summary) <;> simp
  · rw [ht]
    cases incT && truthy (dget m Key.transcript) <;> simp
  · rw [ha]
    cases incA && truthy (dget m Key.action_items) <;> simp

/-- C10: present-but-empty optional sub-resources project exactly like
absent ones: an empty invitee list, an empty (or null) `recorded_by`, and
an empty `default_summary` each leave the corresponding output key out,
just as a missing field (read as `null`) does. -/
theorem c10_empty_like_absent (incS incT incA : Bool) (m : JVal) :
    (dget m Key.calendar_invitees = JVal.arr [] ∨
        dget m Key.calendar_invitees = JVal.null →
      lookupJ (projectMeeting incS incT incA m) Key.calendar_invitees = none) ∧
    (dget m Key.recorded_by = JVal.obj [] ∨ dget m Key.recorded_by = JVal.null →
      lookupJ (projectMeeting incS incT incA m) Key.recorded_by = none) ∧
    (dget m Key.default_summary = JVal.obj [] ∨
        dget m Key.default_summary = JVal.null →
      lookupJ (projectMeeting incS incT incA m) Key.summary = none) := by
  obtain ⟨hr, hi, hs, -, -⟩ := lookupJ_projectMeeting incS incT incA m
  refine ⟨fun h => ?_, fun h => ?_, fun h => ?_⟩
  · rw [hi]
    rcases h with h | h <;> rw [h] <;> simp [truthy]
  · rw [hr]
    rcases h with h | h <;> rw [h] <;> simp [truthy]
  · rw [hs]
    rcases h with h | h <;> rw [h] <;> simp [truthy]

/-- C10 witness: a record whose invitee list, recorded_by and
default_summary are all present but empty projects none of the three
keys. -/
theorem c10_witness :
    lookupJ (projectMeeting true true true
      (JVal.obj [(Key.calendar_invitees, JVal.arr []),
                 (Key.recorded_by, JVal.obj []),
                 (Key.default_summary, JVal.obj [])]))
      Key.calendar_invitees = none ∧
    lookupJ (projectMeeting true true true
      (JVal.obj [(Key.calendar_invitees, JVal.arr []),
                 (Key.recorded_by, JVal.obj []),
                 (Key.default_summary, JVal.obj [])]))
      Key.recorded_by = none ∧
    lookupJ (projectMeeting true true true
      (JVal.obj [(Key.calendar_invitees, JVal.arr []),
                 (Key.recorded_by, JVal.obj []),
                 (Key.default_summary, JVal.obj [])]))
      Key.summary = none := by
  obtain ⟨h1, h2, h3⟩ := c10_empty_like_absent true true true
    (JVal.obj [(Key.calendar_invitees, JVal.arr []),
               (Key.recorded_by, JVal.obj []),
               (Key.default_summary, JVal.obj [])])
  exact ⟨h1 (Or.inl rfl), h2 (Or.inl rfl), h3 (Or.inl rfl)⟩

/-- C7: `get_summary` yields `{recording_id, template_name,
markdown_formatted}` when the envelope carries a truthy summary object,
and otherwise the soft not-found value `{recording_id, error}` with no
`template_name` key — an ordinary return value either way. -/
theorem c7_summary_soft_not_found (rid : Int) (data : JVal) :
    dget (get_summary_from rid data) Key.recording_id = JVal.num rid ∧
    (truthy (dget data Key.summary) = true →
      get_summary_from rid data =
        JVal.obj [(Key.recording_id, JVal.num rid),
          (Key.template_name, dget (dget data Key.summary) Key.template_name),
          (Key.markdown_formatted,
            dget (dget data Key.summary) Key.markdown_formatted)]) ∧
    (truthy (dget data Key.summary) = false →
      get_summary_from rid data =
        JVal.obj [(Key.recording_id, JVal.num rid),
                  (Key.error, JVal.str noSummaryMsg)] ∧
      lookupJ (get_summary_from rid data) Key.template_name = none) := by
  by_cases h : truthy (dget data Key.summary) = true
  · have hs : get_summary_from rid data =
        JVal.obj [(Key.recording_id, JVal.num rid),
          (Key.template_name, dget (dget data Key.summary) Key.template_name),
          (Key.markdown_formatted,
            dget (dget data Key.summary) Key.markdown_formatted)] := by
      simp only [get_summary_from]
      rw [if_pos h]
    refine ⟨?_, fun _ => hs, fun hf => absurd h (by simp [hf])⟩
    rw [hs]
    rfl
  · have hs : get_summary_from rid data =
        JVal.obj [(Key.recording_id, JVal.num rid),
                  (Key.error, JVal.str noSummaryMsg)] := by
      simp only [get_summary_from]
      rw [if_neg h]
    refine ⟨?_, fun ht => absurd ht h, fun _ => ⟨hs, ?_⟩⟩ <;> rw [hs] <;> rfl

/-- C8: `get_transcript` always returns
`{recording_id, transcript, segment_count}` with `segment_count` the
number of raw segments; each projected segment holds a `speaker`
sub-object iff the raw segment's `speaker` is truthy, text defaults to
`""` when the raw `text` key is missing, and a truthy speaker with no
`display_name` key projects the display name "Unknown". -/
theorem c8_transcript_shape (rid : Int) (data : JVal) :
    get_transcript_from rid data =
      JVal.obj [(Key.recording_id, JVal.num rid),
        (Key.transcript,
          JVal.arr ((asArr (pyGetD data Key.transcript (JVal.arr []))).map
            project_transcript_segment)),
        (Key.segment_count,
          JVal.num ((asArr (pyGetD data Key.transcript (JVal.arr []))).length :
            Int))] ∧
    (∀ seg : JVal,
      (lookupJ (project_transcript_segment seg) Key.speaker).isSome =
        truthy (dget seg Key.speaker) ∧
      (lookupJ seg Key.text = none →
        dget (project_transcript_segment seg) Key.text = JVal.str []) ∧
      (truthy (dget seg Key.speaker) = true →
        lookupJ (dget seg Key.speaker) Key.display_name = none →
        dget (dget (project_transcript_segment seg) Key.speaker)
            Key.display_name =
          JVal.str ['U', 'n', 'k', 'n', 'o', 'w', 'n'])) := by
  refine ⟨by simp [get_transcript_from], fun seg => ⟨?_, ?_, ?_⟩⟩
  · by_cases h : truthy (dget seg Key.speaker) = true <;>
      simp [project_transcript_segment, lookupJ, jlookup, h]
  · intro ht
    have hd : pyGetD seg Key.text (JVal.str []) = JVal.str [] := by
      cases seg <;> simp_all [pyGetD, lookupJ]
    simp [project_transcript_segment, dget, jlookup, hd]
  · intro h hd
    have hsp : pyGetD (dget seg Key.speaker) Key.display_name
        (JVal.str ['U', 'n', 'k', 'n', 'o', 'w', 'n']) =
        JVal.str ['U', 'n', 'k', 'n', 'o', 'w', 'n'] := by
      cases hc : dget seg Key.speaker <;> simp_all [pyGetD, lookupJ]
    have hstep : project_transcript_segment seg =
        JVal.obj [(Key.text, pyGetD seg Key.text (JVal.str [])),
          (Key.timestamp, dget seg Key.timestamp),
          (Key.speaker,
            JVal.obj [(Key.display_name,
                pyGetD (dget seg Key.speaker) Key.display_name
                  (JVal.str ['U', 'n', 'k', 'n', 'o', 'w', 'n'])),
              (Key.email,
                dget (dget seg Key.speaker)
                  Key.matched_calendar_invitee_email)])] := by
      simp only [project_transcript_segment]
      rw [if_pos h]
      rfl
    rw [hstep]
    show (jlookup Key.display_name
        [(Key.display_name,
            pyGetD (dget seg Key.speaker) Key.display_name
              (JVal.str ['U', 'n', 'k', 'n', 'o', 'w', 'n'])),
          (Key.email,
            dget (dget seg Key.speaker)
              Key.matched_calendar_invitee_email)]).getD JVal.null =
      JVal.str ['U', 'n', 'k', 'n', 'o', 'w', 'n']
    simp [jlookup, hsp]

/-- C8 witness: a segment with a truthy speaker lacking `display_name`
projects "Unknown", and a segment with a missing `text` key projects the
empty string. -/
theorem c8_witness :
    dget (dget (project_transcript_segment
        (JVal.obj [(Key.speaker,
          JVal.obj [(Key.matched_calendar_invitee_email, JVal.null)])]))
        Key.speaker) Key.display_name =
      JVal.str ['U', 'n', 'k', 'n', 'o', 'w', 'n'] ∧
    dget (project_transcript_segment
        (JVal.obj [(Key.speaker,
          JVal.obj [(Key.matched_calendar_invitee_email, JVal.null)])]))
        Key.text =
      JVal.str [] := by
  obtain ⟨-, hseg⟩ := c8_transcript_shape 7 (JVal.obj [])
  obtain ⟨-, htext, hspk⟩ := hseg
    (JVal.obj [(Key.speaker,
      JVal.obj [(Key.matched_calendar_invitee_email, JVal.null)])])
  exact ⟨hspk rfl rfl, htext rfl⟩

/-! ### Agreement of the checked and the total projections -/

theorem dgetE_of_obj {d : JVal} (h : isObjB d = true) (k : Key) :
    dgetE d k = some (dget d k) := by
  cases d <;> simp_all [dgetE, dget, isObjB]

theorem pyGetDE_of_obj {d : JVal} (h : isObjB d = true) (k : Key)
    (dflt : JVal) : pyGetDE d k dflt = some (pyGetD d k dflt) := by
  cases d <;> simp_all [pyGetDE, pyGetD, isObjB]

theorem asArrE_of_arr {d : JVal} (h : isArrB d = true) :
    asArrE d = some (asArr d) := by
  cases d <;> simp_all [asArrE, asArr, isArrB]

theorem mapME_eq_map {f : JVal → Option JVal} {g : JVal → JVal} :
    ∀ {xs : List JVal}, (∀ x ∈ xs, f x = some (g x)) →
      mapME f xs = some (xs.map g)
  | [], _ => rfl
  | x :: xs, h => by
    unfold mapME
    rw [h x (.head _), mapME_eq_map (fun y hy => h y (.tail _ hy))]
    rfl

theorem project_inviteeE_eq {inv : JVal} (h : isObjB inv = true) :
    project_inviteeE inv = some (project_invitee inv) := by
  simp [project_inviteeE, project_invitee, dgetE_of_obj h]

/-- A well-formed inline segment is a dict whose fetched speaker (with the
`{}` default) is a dict. -/
theorem wfSegInline_parts {seg : JVal} (h : wfSegInline seg = true) :
    isObjB seg = true ∧ isObjB (pyGetD seg Key.speaker (JVal.obj [])) = true := by
  cases seg with
  | obj fs =>
    refine ⟨rfl, ?_⟩
    have h' : (match jlookup Key.speaker fs with
        | none => true
        | some v => isObjB v) = true := h
    show isObjB ((jlookup Key.speaker fs).getD (JVal.obj [])) = true
    cases hj : jlookup Key.speaker fs with
    | none => rfl
    | some v =>
      rw [hj] at h'
      exact h'
  | null => exact absurd h (by simp [wfSegInline])
  | bool b => exact absurd h (by simp [wfSegInline])
  | num n => exact absurd h (by simp [wfSegInline])
  | str s => exact absurd h (by simp [wfSegInline])
  | arr xs => exact absurd h (by simp [wfSegInline])

theorem project_segment_inlineE_eq {seg : JVal} (h : wfSegInline seg = true) :
    project_segment_inlineE seg = some (project_segment_inline seg) := by
  obtain ⟨h1, h2⟩ := wfSegInline_parts h
  simp [project_segment_inlineE, project_segment_inline,
    pyGetDE_of_obj h1, dgetE_of_obj h1, pyGetDE_of_obj h2]

theorem project_action_itemE_eq {item : JVal} (h : isObjB item = true) :
    project_action_itemE item = some (project_action_item item) := by
  simp [project_action_itemE, project_action_item, dgetE_of_obj h]

theorem fixedFieldsE_eq {m : JVal} (h : isObjB m = true) :
    fixedFieldsE m = some
      [(Key.title, dget m Key.title),
       (Key.meeting_title, dget m Key.meeting_title),
       (Key.recording_id, dget m Key.recording_id),
       (Key.url, dget m Key.url),
       (Key.share_url, dget m Key.share_url),
       (Key.created_at, dget m Key.created_at),
       (Key.scheduled_start_time, dget m Key.scheduled_start_time),
       (Key.scheduled_end_time, dget m Key.scheduled_end_time),
       (Key.recording_start_time, dget m Key.recording_start_time),
       (Key.recording_end_time, dget m Key.recording_end_time),
       (Key.transcript_language, dget m Key.transcript_language)] := by
  simp [fixedFieldsE, mkFixedFields, dgetE_of_obj h]

theorem recordedByPartE_eq {m : JVal} (h : isObjB m = true)
    (hrb : (!truthy (dget m Key.recorded_by) ||
        isObjB (dget m Key.recorded_by)) = true) :
    recordedByPartE m = some
      (if truthy (dget m Key.recorded_by) then
        [(Key.recorded_by,
          JVal.obj [(Key.name, dget (dget m Key.recorded_by) Key.name),
                    (Key.email, dget (dget m Key.recorded_by) Key.email)])]
       else []) := by
  unfold recordedByPartE
  rw [dgetE_of_obj h]
  by_cases ht : truthy (dget m Key.recorded_by) = true
  · simp only [ht, Bool.not_true, Bool.false_or] at hrb
    simp [ht, dgetE_of_obj hrb]
  · simp [ht]

theorem inviteesPartE_eq {m : JVal} (h : isObjB m = true)
    (hinv : (!truthy (dget m Key.calendar_invitees) ||
        (isArrB (dget m Key.calendar_invitees) &&
          (asArr (dget m Key.calendar_invitees)).all isObjB)) = true) :
    inviteesPartE m = some
      (if truthy (dget m Key.calendar_invitees) then
        [(Key.calendar_invitees,
          JVal.arr ((asArr (dget m Key.calendar_invitees)).map project_invitee))]
       else []) := by
  unfold inviteesPartE
  rw [dgetE_of_obj h]
  simp only [Option.some_bind]
  by_cases ht : truthy (dget m Key.calendar_invitees) = true
  · simp only [ht, Bool.not_true, Bool.false_or, Bool.and_eq_true] at hinv
    obtain ⟨ha, hall⟩ := hinv
    rw [List.all_eq_true] at hall
    rw [if_pos ht, asArrE_of_arr ha]
    simp only [Option.some_bind]
    rw [mapME_eq_map (fun x hx => project_inviteeE_eq (hall x hx))]
    simp only [Option.some_bind]
    rw [if_pos ht]
  · rw [if_neg ht, if_neg ht]

theorem summaryPartE_eq {m : JVal} (incS : Bool) (h : isObjB m = true)
    (hs : (!truthy (dget m Key.default_summary) ||
        isObjB (dget m Key.default_summary)) = true) :
    summaryPartE incS m = some
      (if incS && truthy (dget m Key.default_summary) then
        [(Key.summary,
          JVal.obj [(Key.template_name,
              dget (dget m Key.default_summary) Key.template_name),
            (Key.markdown_formatted,
              dget (dget m Key.default_summary) Key.markdown_formatted)])]
       else []) := by
  unfold summaryPartE
  rw [dgetE_of_obj h]
  simp only [Option.some_bind]
  by_cases hc : (incS && truthy (dget m Key.default_summary)) = true
  · have ht : truthy (dget m Key.default_summary) = true := by
      have hc' := hc
      simp only [Bool.and_eq_true] at hc'
      exact hc'.2
    simp only [ht, Bool.not_true, Bool.false_or] at hs
    rw [if_pos hc, dgetE_of_obj hs]
    simp only [Option.some_bind]
    rw [dgetE_of_obj hs]
    simp only [Option.some_bind]
    rw [if_pos hc]
  · rw [if_neg hc, if_neg hc]

theorem transcriptPartE_eq {m : JVal} (incT : Bool) (h : isObjB m = true)
    (htr : (!truthy (dget m Key.transcript) ||
        (isArrB (dget m Key.transcript) &&
          (asArr (dget m Key.transcript)).all wfSegInline)) = true) :
    transcriptPartE incT m = some
      (if incT && truthy (dget m Key.transcript) then
        [(Key.transcript,
          JVal.arr ((asArr (dget m Key.transcript)).map project_segment_inline))]
       else []) := by
  unfold transcriptPartE
  rw [dgetE_of_obj h]
  simp only [Option.some_bind]
  by_cases hc : (incT && truthy (dget m Key.transcript)) = true
  · have ht : truthy (dget m Key.transcript) = true := by
      have hc' := hc
      simp only [Bool.and_eq_true] at hc'
      exact hc'.2
    simp only [ht, Bool.not_true, Bool.false_or, Bool.and_eq_true] at htr
    obtain ⟨ha, hall⟩ := htr
    rw [List.all_eq_true] at hall
    rw [if_pos hc, asArrE_of_arr ha]
    simp only [Option.some_bind]
    rw [mapME_eq_map (fun x hx => project_segment_inlineE_eq (hall x hx))]
    simp only [Option.some_bind]
    rw [if_pos hc]
  · rw [if_neg hc, if_neg hc]

theorem actionItemsPartE_eq {m : JVal} (incA : Bool) (h : isObjB m = true)
    (hai : (!truthy (dget m Key.action_items) ||
        (isArrB (dget m Key.action_items) &&
          (asArr (dget m Key.action_items)).all isObjB)) = true) :
    actionItemsPartE incA m = some
      (if incA && truthy (dget m Key.action_items) then
        [(Key.action_items,
          JVal.arr ((asArr (dget m Key.action_items)).map project_action_item))]
       else []) := by
  unfold actionItemsPartE
  rw [dgetE_of_obj h]
  simp only [Option.some_bind]
  by_cases hc : (incA && truthy (dget m Key.action_items)) = true
  · have ht : truthy (dget m Key.action_items) = true := by
      have hc' := hc
      simp only [Bool.and_eq_true] at hc'
      exact hc'.2
    simp only [ht, Bool.not_true, Bool.false_or, Bool.and_eq_true] at hai
    obtain ⟨ha, hall⟩ := hai
    rw [List.all_eq_true] at hall
    rw [if_pos hc, asArrE_of_arr ha]
    simp only [Option.some_bind]
    rw [mapME_eq_map (fun x hx => project_action_itemE_eq (hall x hx))]
    simp only [Option.some_bind]
    rw [if_pos hc]
  · rw [if_neg hc, if_neg hc]

/-- The checked meeting projection agrees with the total one on every
well-formed record. -/
theorem projectMeetingE_eq (incS incT incA : Bool) {m : JVal}
    (h : wfMeeting m = true) :
    projectMeetingE incS incT incA m = some (projectMeeting incS incT incA m) := by
  have h' := h
  simp only [wfMeeting, Bool.and_eq_true] at h'
  obtain ⟨⟨⟨⟨⟨h0, h1⟩, h2⟩, h3⟩, h4⟩, h5⟩ := h'
  unfold projectMeetingE
  rw [fixedFieldsE_eq h0, recordedByPartE_eq h0 h1, inviteesPartE_eq h0 h2,
    summaryPartE_eq incS h0 h3, transcriptPartE_eq incT h0 h4,
    actionItemsPartE_eq incA h0 h5]
  rfl

/-- The checked summary projection agrees with the total one on every
well-formed envelope. -/
theorem get_summary_fromE_eq (rid : Int) {data : JVal}
    (h : wfSummaryEnv data = true) :
    get_summary_fromE rid data = some (get_summary_from rid data) := by
  simp only [wfSummaryEnv, Bool.and_eq_true] at h
  obtain ⟨h0, h1⟩ := h
  unfold get_summary_fromE
  rw [dgetE_of_obj h0]
  simp only [Option.some_bind]
  by_cases ht : truthy (dget data Key.summary) = true
  · simp only [ht, Bool.not_true, Bool.false_or] at h1
    rw [if_pos ht, dgetE_of_obj h1]
    simp only [Option.some_bind]
    rw [dgetE_of_obj h1]
    simp only [Option.some_bind]
    simp only [get_summary_from]
    rw [if_pos ht]
  · rw [if_neg ht]
    simp only [get_summary_from]
    rw [if_neg ht]

/-- A well-formed transcript segment is a dict whose truthy speaker is a
dict. -/
theorem wfSegT_parts {seg : JVal} (h : wfSegT seg = true) :
    isObjB seg = true ∧
    (truthy (dget seg Key.speaker) = true →
      isObjB (dget seg Key.speaker) = true) := by
  simp only [wfSegT, Bool.and_eq_true] at h
  obtain ⟨h0, h1⟩ := h
  refine ⟨h0, fun ht => ?_⟩
  simp only [ht, Bool.not_true, Bool.false_or] at h1
  exact h1

theorem project_transcript_segmentE_eq {seg : JVal} (h : wfSegT seg = true) :
    project_transcript_segmentE seg = some (project_transcript_segment seg) := by
  obtain ⟨h0, h1⟩ := wfSegT_parts h
  unfold project_transcript_segmentE
  rw [pyGetDE_of_obj h0]
  simp only [Option.some_bind]
  rw [dgetE_of_obj h0]
  simp only [Option.some_bind]
  rw [dgetE_of_obj h0]
  simp only [Option.some_bind]
  by_cases ht : truthy (dget seg Key.speaker) = true
  · rw [if_pos ht, pyGetDE_of_obj (h1 ht)]
    simp only [Option.some_bind]
    rw [dgetE_of_obj (h1 ht)]
    simp only [Option.some_bind]
    simp only [project_transcript_segment]
    rw [if_pos ht]
  · rw [if_neg ht]
    simp only [Option.some_bind]
    simp only [project_transcript_segment]
    rw [if_neg ht]

/-- A well-formed transcript envelope is a dict whose fetched transcript
(with the `[]` default) is a list of well-formed segments. -/
theorem wfTranscriptEnv_parts {data : JVal} (h : wfTranscriptEnv data = true) :
    isObjB data = true ∧
    isArrB (pyGetD data Key.transcript (JVal.arr [])) = true ∧
    (asArr (pyGetD data Key.transcript (JVal.arr []))).all wfSegT = true := by
  cases data with
  | obj fs =>
    have h' : (match jlookup Key.transcript fs with
        | none => true
        | some v => isArrB v && (asArr v).all wfSegT) = true := h
    refine ⟨rfl, ?_⟩
    show isArrB ((jlookup Key.transcript fs).getD (JVal.arr [])) = true ∧
      (asArr ((jlookup Key.transcript fs).getD (JVal.arr []))).all wfSegT = true
    cases hj : jlookup Key.transcript fs with
    | none => exact ⟨rfl, rfl⟩
    | some v =>
      rw [hj] at h'
      exact Bool.and_eq_true_iff.mp h'
  | null => exact absurd h (by simp [wfTranscriptEnv])
  | bool b => exact absurd h (by simp [wfTranscriptEnv])
  | num n => exact absurd h (by simp [wfTranscriptEnv])
  | str s => exact absurd h (by simp [wfTranscriptEnv])
  | arr xs => exact absurd h (by simp [wfTranscriptEnv])

/-- The checked transcript projection agrees with the total one on every
well-formed envelope. -/
theorem get_transcript_fromE_eq (rid : Int) {data : JVal}
    (h : wfTranscriptEnv data = true) :
    get_transcript_fromE rid data = some (get_transcript_from rid data) := by
  obtain ⟨h0, ha, hall⟩ := wfTranscriptEnv_parts h
  unfold get_transcript_fromE
  rw [pyGetDE_of_obj h0]
  simp only [Option.some_bind]
  rw [asArrE_of_arr ha]
  simp only [Option.some_bind]
  rw [List.all_eq_true] at hall
  rw [mapME_eq_map (fun x hx => project_transcript_segmentE_eq (hall x hx))]
  simp only [Option.some_bind]
  rfl

/-- C9 (amended): the three projections are total over well-formed input
(dictionaries whose present sub-objects have the shape the code consumes)
and never raise on absent optional fields; an explicit `null` is likewise
tolerated everywhere except in the two spots the counterexample exhibits
(a transcript segment's null `speaker` inside the meeting projection, and
a null `transcript` list in the transcript envelope). -/
theorem c9_projections_total :
    (∀ (incS incT incA : Bool) (m : JVal), wfMeeting m = true →
      projectMeetingE incS incT incA m =
        some (projectMeeting incS incT incA m)) ∧
    (∀ (rid : Int) (data : JVal), wfSummaryEnv data = true →
      get_summary_fromE rid data = some (get_summary_from rid data)) ∧
    (∀ (rid : Int) (data : JVal), wfTranscriptEnv data = true →
      get_transcript_fromE rid data = some (get_transcript_from rid data)) :=
  ⟨fun incS incT incA _ h => projectMeetingE_eq incS incT incA h,
   fun rid _ h => get_summary_fromE_eq rid h,
   fun rid _ h => get_transcript_fromE_eq rid h⟩

/-- C9 counterexample: the claim "projection succeeds on every record in
which any optional field is absent or null" is false: a raw meeting whose
transcript segment stores an explicitly null `speaker` makes the checked
meeting projection fail (`seg.get("speaker", {}).get(...)` is applied to
`None` in the Python code). -/
theorem c9_counterexample :
    projectMeetingE false true false
      (JVal.obj [(Key.transcript,
        JVal.arr [JVal.obj [(Key.speaker, JVal.null)]])]) = none := rfl

/-- C9 witness: the amended totality at concrete well-formed inputs with
absent and null optional fields. -/
theorem c9_witness :
    wfMeeting (JVal.obj [(Key.title, JVal.null)]) = true ∧
    projectMeetingE true true true (JVal.obj [(Key.title, JVal.null)]) =
      some (projectMeeting true true true (JVal.obj [(Key.title, JVal.null)])) ∧
    wfSummaryEnv (JVal.obj []) = true ∧
    get_summary_fromE 1 (JVal.obj []) =
      some (get_summary_from 1 (JVal.obj [])) ∧
    wfTranscriptEnv (JVal.obj [(Key.transcript, JVal.arr [JVal.obj []])]) = true ∧
    get_transcript_fromE 2
        (JVal.obj [(Key.transcript, JVal.arr [JVal.obj []])]) =
      some (get_transcript_from 2
        (JVal.obj [(Key.transcript, JVal.arr [JVal.obj []])])) :=
  ⟨by decide,
   c9_projections_total.1 true true true _ (by decide),
   by decide,
   c9_projections_total.2.1 1 _ (by decide),
   by decide,
   c9_projections_total.2.2 2 _ (by decide)⟩

/-- C7 witness: a populated envelope takes the success shape; an envelope
with no summary object takes the soft error shape with no
`template_name` key. -/
theorem c7_witness :
    get_summary_from 3
        (JVal.obj [(Key.summary,
          JVal.obj [(Key.template_name, JVal.str ['t'])])]) =
      JVal.obj [(Key.recording_id, JVal.num 3),
        (Key.template_name, JVal.str ['t']),
        (Key.markdown_formatted, JVal.null)] ∧
    get_summary_from 4 (JVal.obj []) =
      JVal.obj [(Key.recording_id, JVal.num 4),
                (Key.error, JVal.str noSummaryMsg)] ∧
    lookupJ (get_summary_from 4 (JVal.obj [])) Key.template_name = none := by
  refine ⟨?_, ?_, ?_⟩
  · exact (c7_summary_soft_not_found 3
      (JVal.obj [(Key.summary,
        JVal.obj [(Key.template_name, JVal.str ['t'])])])).2.1 rfl
  · exact ((c7_summary_soft_not_found 4 (JVal.obj [])).2.2 rfl).1
  · exact ((c7_summary_soft_not_found 4 (JVal.obj [])).2.2 rfl).2
